import Mathlib

set_option allowUnsafeReducibility true
set_option linter.unusedVariables false
attribute [local semireducible] Rat.add Rat.mul Rat.inv Rat.sub Rat.ofScientific

/-!
Verification of the AI-MART recommendation scoring engine.

Shallow embedding of `src/algorithms/hybrid_approach.py` (class `HybridApproach`)
and the single-candidate explanation path it shares with
`src/agents/recommendation_agent.py`.  Python floats are modelled as exact
rationals (`ℚ`); Python strings as Lean `String`; Python dicts holding the
product fields read by the algorithm as a `Product` structure.  The single
runtime failure the scoring entry point can hit (a `ZeroDivisionError` inside
the candidate loop, converted to an empty result by the function's catch-all
`except` clause) is modelled explicitly by a guard that returns `[]`.
-/

/-- A catalog entry / cart line.  The algorithm reads only the keys
`id`, `category`, `price`, `description` (plus `name`, carried along but never
consulted); `quantity` on cart lines is never read by the scoring code and is
omitted. -/
structure Product where
  id : Nat
  name : String
  category : String
  price : ℚ
  description : String
  deriving DecidableEq, Repr

/-- The customer profile handed to the scoring entry point.
`RecommendationAgent._get_customer_profile` builds `{id, preferences, history}`;
`HybridApproach.generate_recommendations` never reads any of it, so only the
`id` field is carried. -/
structure CustomerProfile where
  id : Nat
  deriving DecidableEq, Repr

/-- One recommendation dictionary as built by
`HybridApproach.generate_recommendations` (both branches produce exactly the
keys `product_id`, `product`, `score`, `confidence_score`, `source`,
`explanation`). -/
structure Recommendation where
  product_id : Nat
  product : Product
  score : ℚ
  confidence_score : ℚ
  source : String
  explanation : String
  deriving DecidableEq, Repr

/-- Collects the maximal non-whitespace runs of a character list; `acc` holds
the (reversed) run currently being read. -/
def pySplitAux : List Char → List Char → List String
  | [], acc => if acc.isEmpty then [] else [String.mk acc.reverse]
  | c :: cs, acc =>
    if c.isWhitespace then
      if acc.isEmpty then pySplitAux cs []
      else String.mk acc.reverse :: pySplitAux cs []
    else pySplitAux cs (c :: acc)

/-- Python `str.split()` (no argument): the maximal whitespace-free runs, so
empty pieces never appear. -/
def pySplit (s : String) : List String :=
  pySplitAux s.data []

/-- Python `str.lower()` on one character: the ASCII case map (the repository's
catalog descriptions are ASCII; other characters map to themselves). -/
def lowerChar : Char → Char
  | 'A' => 'a' | 'B' => 'b' | 'C' => 'c' | 'D' => 'd' | 'E' => 'e' | 'F' => 'f'
  | 'G' => 'g' | 'H' => 'h' | 'I' => 'i' | 'J' => 'j' | 'K' => 'k' | 'L' => 'l'
  | 'M' => 'm' | 'N' => 'n' | 'O' => 'o' | 'P' => 'p' | 'Q' => 'q' | 'R' => 'r'
  | 'S' => 's' | 'T' => 't' | 'U' => 'u' | 'V' => 'v' | 'W' => 'w' | 'X' => 'x'
  | 'Y' => 'y' | 'Z' => 'z'
  | c => c

/-- Python `str.lower()`, character by character. -/
def pyLower (s : String) : String :=
  String.mk (s.data.map lowerChar)

/-- `set(desc.lower().split())` — the token set of a description, modelled as
a duplicate-free list (one entry per distinct token). -/
def tokens (s : String) : List String :=
  (pySplit (pyLower s)).dedup

/-- `set(a.lower().split()) & set(b.lower().split())` — the common tokens of
two descriptions; its length is the cardinality of the set intersection. -/
def commonTokens (a b : String) : List String :=
  (tokens a).filter fun w => w ∈ tokens b

/-- `len(desc.split())` — the number of whitespace-separated words of a
description, counted with multiplicity (the source does *not* deduplicate or
lower-case here). -/
def wordCount (s : String) : Nat :=
  (pySplit s).length

/-- Category match confidence (hybrid_approach.py line 42):
`1.0 if product["category"] in cart_categories else 0.0`. -/
def categoryConfidence (product : Product) (cart_products : List Product) : ℚ :=
  if product.category ∈ cart_products.map Product.category then 1 else 0

/-- Price similarity confidence (hybrid_approach.py lines 46-48):
`1.0 / (1.0 + abs(price - avg_cart_price)/avg_cart_price)`.  The
`ZeroDivisionError` cases are handled by the caller (`rawRecs`). -/
def priceConfidence (price avg_cart_price : ℚ) : ℚ :=
  1 / (1 + |price - avg_cart_price| / avg_cart_price)

/-- Description similarity confidence (hybrid_approach.py lines 51-57): a fold
over the cart mirroring the Python loop — intersect the lower-cased token sets
and, when the intersection is non-empty, take the max of the accumulator and
`len(common_words) / max(len(product.description.split()), len(cart_item.description.split()))`. -/
def descConfidence (product : Product) (cart_products : List Product) : ℚ :=
  cart_products.foldl
    (fun acc cart_item =>
      let common := commonTokens product.description cart_item.description
      if common.isEmpty then acc
      else max acc ((common.length : ℚ) /
        ((max (wordCount product.description) (wordCount cart_item.description) : Nat) : ℚ)))
    0

/-- Models the Python f-string fragment `f"{avg_cart_price:.2f}"`: the value
rendered with two decimal digits.  (Ties of the underlying binary float round
half-even in CPython; on exact rationals we round halves up — no claim depends
on the tie digit.) -/
def formatPrice2 (q : ℚ) : String :=
  let c : ℤ := round (q * 100)
  let sign := if c < 0 then "-" else ""
  let n := c.natAbs
  let frac := n % 100
  sign ++ toString (n / 100) ++ "." ++ (if frac < 10 then "0" else "") ++ toString frac

/-- `HybridApproach._generate_confidence_explanation` (hybrid_approach.py
lines 232-257): build the clause list in source order, fall back to the
popularity sentence when it is empty, otherwise join with `", "` after
`"This product "`. -/
def generate_confidence_explanation (category_confidence price_confidence desc_confidence : ℚ)
    (product : Product) (avg_cart_price : ℚ) : String :=
  let explanations : List String :=
    (if 0 < category_confidence then
      ["matches your preferred category (" ++ product.category ++ ")"] else [])
    ++ (if (0.7 : ℚ) < price_confidence then
          ["is in a similar price range ($" ++ formatPrice2 avg_cart_price ++ ")"]
        else if (0.4 : ℚ) < price_confidence then
          ["is within an acceptable price range"]
        else [])
    ++ (if (0.3 : ℚ) < desc_confidence then
          ["has similar features to items in your cart"] else [])
  if explanations.isEmpty then "Recommended based on general popularity"
  else "This product " ++ String.intercalate ", " explanations

/-- One recommendation dictionary of the non-empty-cart branch
(hybrid_approach.py lines 38-75): the three weighted confidence factors are
summed (weights 0.4 / 0.3 / 0.3) and the dict stores the same value under
`score` and `confidence_score`. -/
def hybridRecItem (cart_products : List Product) (avg_cart_price : ℚ)
    (product : Product) : Recommendation :=
  let category_confidence := categoryConfidence product cart_products
  let price_confidence := priceConfidence product.price avg_cart_price
  let desc_confidence := descConfidence product cart_products
  let confidence_score :=
    category_confidence * 0.4 + price_confidence * 0.3 + desc_confidence * 0.3
  { product_id := product.id
    product := product
    score := confidence_score
    confidence_score := confidence_score
    source := "hybrid"
    explanation := generate_confidence_explanation category_confidence price_confidence
      desc_confidence product avg_cart_price }

/-- One recommendation dictionary of the empty-cart fallback branch
(hybrid_approach.py lines 77-97). `categories` is the Python
`list(set(p["category"] for p in available_products))` (see `fallbackRecs`),
`total` is `len(available_products)` and `idx` the enumeration index. -/
def fallbackRecItem (categories : List String) (total : Nat) (idx : Nat)
    (product : Product) : Recommendation :=
  let category_position := categories.indexOf product.category
  let diversity_confidence := 1 - (category_position : ℚ) / (categories.length : ℚ)
  let position_confidence := 1 - (idx : ℚ) / (total : ℚ)
  let confidence_score := diversity_confidence * 0.6 + position_confidence * 0.4
  { product_id := product.id
    product := product
    score := confidence_score
    confidence_score := confidence_score
    source := "hybrid"
    explanation := "Popular product in the " ++ product.category ++ " category" }

/-- `for idx, product in enumerate(available_products)` of the fallback
branch, building one dict per candidate. -/
def fallbackRecsAux (categories : List String) (total : Nat) :
    Nat → List Product → List Recommendation
  | _, [] => []
  | idx, p :: ps =>
      fallbackRecItem categories total idx p :: fallbackRecsAux categories total (idx + 1) ps

/-- The fallback branch's recommendation list.  The source computes
`categories = list(set(p["category"] for p in available_products))`; a CPython
`set` of strings enumerates in hash order, which is not a function of the
input (it varies with `PYTHONHASHSEED`), so the enumeration is taken as an
explicit parameter `enum`: any run of the program corresponds to some `enum`
producing a duplicate-free enumeration of the distinct categories. -/
def fallbackRecs (enum : List String → List String)
    (available_products : List Product) : List Recommendation :=
  let categories := enum (available_products.map Product.category)
  fallbackRecsAux categories available_products.length 0 available_products

/-- `available_products = [p for p in product_list if p["id"] not in cart_product_ids]`
(hybrid_approach.py lines 27-29). -/
def availableProducts (cart_products product_list : List Product) : List Product :=
  product_list.filter fun p => p.id ∉ cart_products.map Product.id

/-- `sum(float(item["price"]) for item in cart_products) / len(cart_products)`
(hybrid_approach.py line 36). -/
def avgCartPrice (cart_products : List Product) : ℚ :=
  (cart_products.map Product.price).sum / (cart_products.length : ℚ)

/-- The `recommendations` list as it stands just before the final sort.
The non-empty-cart branch can raise `ZeroDivisionError` inside the loop —
when `avg_cart_price == 0`, or when `1 + price_diff/avg_cart_price == 0`
(possible only for a negative average) — which the function-level `except`
converts into returning `[]`; that aborted state is modelled by the guard. -/
def rawRecs (enum : List String → List String)
    (cart_products product_list : List Product) : List Recommendation :=
  let available := availableProducts cart_products product_list
  if cart_products.isEmpty then fallbackRecs enum available
  else
    let avg := avgCartPrice cart_products
    if avg = 0 ∨ available.any (fun p => 1 + |p.price - avg| / avg = 0) then []
    else available.map (hybridRecItem cart_products avg)

/-- Python `lst[:limit]` for an arbitrary (possibly negative) `int` limit. -/
def pySlice (l : List α) (limit : Int) : List α :=
  if 0 ≤ limit then l.take limit.toNat else l.take (l.length - limit.natAbs)

/-- Stable insertion of one element into a descending-by-`confidence_score`
list: the element goes before the first entry whose score is `≤` its own, so
earlier-listed elements win ties.  Together with `sortDesc` this is exactly
Python's stable `list.sort(key=lambda x: x["confidence_score"], reverse=True)`. -/
def insertDesc (r : Recommendation) : List Recommendation → List Recommendation
  | [] => [r]
  | s :: l =>
      if s.confidence_score ≤ r.confidence_score then r :: s :: l
      else s :: insertDesc r l

/-- Stable descending sort by `confidence_score` (model of
`recommendations.sort(key=lambda x: x["confidence_score"], reverse=True)`). -/
def sortDesc : List Recommendation → List Recommendation
  | [] => []
  | r :: l => insertDesc r (sortDesc l)

/-- `HybridApproach.generate_recommendations` (hybrid_approach.py lines
20-105): filter out cart products, return `[]` when nothing remains, build
the per-branch recommendation list (`rawRecs`, with the in-loop
`ZeroDivisionError` collapsing to `[]` through the catch-all handler), sort
by `confidence_score` descending (stable) and slice to `limit`. -/
def generate_recommendations (enum : List String → List String)
    (customer_profile : CustomerProfile)
    (cart_products product_list : List Product) (limit : Int) : List Recommendation :=
  let available := availableProducts cart_products product_list
  if available.isEmpty then []
  else pySlice (sortDesc (rawRecs enum cart_products product_list)) limit

/-! ## The single-candidate explanation path

`HybridApproach.explain_recommendation` asks the three sub-algorithms for an
explanation and merges them with `_combine_explanations`.  Every helper those
explainers call is a placeholder returning a constant, so each sub-explainer
returns a fixed dict and no exception can occur. -/

/-- `{explanation, confidence}` as returned by the explanation path. -/
structure ExplanationResult where
  explanation : String
  confidence : ℚ
  deriving DecidableEq, Repr

/-- `CollaborativeFiltering.explain_recommendation`: the helpers
`_get_similar_users_who_liked_product` and
`_generate_explanation_from_similar_users` are placeholders, so the result is
their constant dict. -/
def collaborative_explain_recommendation (_customer_profile : CustomerProfile)
    (_product : Product) : ExplanationResult :=
  { explanation := "Similar customers who liked this product also liked..."
    confidence := 0.8 }

/-- `ContentBasedFiltering.explain_recommendation`: placeholder helpers, so
the result is the constant dict of `_generate_explanation_from_features`. -/
def content_explain_recommendation (_customer_profile : CustomerProfile)
    (_product : Product) : ExplanationResult :=
  { explanation := "This product matches your preferences in the following ways..."
    confidence := 0.8 }

/-- `SequentialPatternMining.explain_recommendation`: placeholder helpers, so
the result is the constant dict of `_generate_explanation_from_patterns`. -/
def sequential_explain_recommendation (_customer_profile : CustomerProfile)
    (_product : Product) : ExplanationResult :=
  { explanation := "Based on your browsing history, customers who viewed similar products often purchase this item next."
    confidence := 0.8 }

/-- `HybridApproach._combine_explanations`: numbered concatenation of the
three texts and `np.mean` of the three confidences. -/
def combine_explanations (collaborative_exp content_exp sequential_exp : ExplanationResult) :
    ExplanationResult :=
  { explanation := "This product was recommended because:\n" ++
      "1. " ++ collaborative_exp.explanation ++ "\n" ++
      "2. " ++ content_exp.explanation ++ "\n" ++
      "3. " ++ sequential_exp.explanation
    confidence := (collaborative_exp.confidence + content_exp.confidence +
      sequential_exp.confidence) / 3 }

/-- `HybridApproach.explain_recommendation` (hybrid_approach.py lines
122-153), the path invoked by
`RecommendationAgent._explain_recommendations`. -/
def explain_recommendation (customer_profile : CustomerProfile)
    (product : Product) : ExplanationResult :=
  combine_explanations
    (collaborative_explain_recommendation customer_profile product)
    (content_explain_recommendation customer_profile product)
    (sequential_explain_recommendation customer_profile product)

/-! ## Claim-side formulas and concrete test data -/

/-- The description-overlap confidence exactly as the specification words it:
maximum over cart lines of `|token-set intersection| / max(|candidate token
set|, |line token set|)` — token-SET cardinalities in the denominator.  Kept
separate from `descConfidence` (the code) to compare the two. -/
def claimDescConfidence (product : Product) (cart_products : List Product) : ℚ :=
  (cart_products.map fun item =>
    ((commonTokens product.description item.description).length : ℚ) /
      ((max (tokens product.description).length (tokens item.description).length : Nat) : ℚ)).foldl
    max 0

/-- The description-overlap confidence with the denominators the code actually
uses — word counts with multiplicity (`len(desc.split())`) — written as an
unconditional maximum over cart lines (a line with empty intersection
contributes a zero ratio). -/
def wordCountDescConfidence (product : Product) (cart_products : List Product) : ℚ :=
  (cart_products.map fun item =>
    ((commonTokens product.description item.description).length : ℚ) /
      ((max (wordCount product.description) (wordCount item.description) : Nat) : ℚ)).foldl
    max 0

/-- One concrete enumeration function standing in for CPython's hash-order
`list(set(...))`; used in closed statements whose truth does not depend on the
enumeration (or where the dependence is the point, see the C5 theorem). -/
def enumDedup : List String → List String := fun l => l.dedup

/-- Concrete profile for closed instantiations. -/
def profileW : CustomerProfile := { id := 0 }

/-- Concrete cart line: id 1, category "A", price 1, description "x". -/
def cartLineW : Product := { id := 1, name := "w", category := "A", price := 1, description := "x" }

/-- Concrete candidate sharing category, price and description token with
`cartLineW`. -/
def candW : Product := { id := 2, name := "c", category := "A", price := 1, description := "x" }

/-- Second concrete candidate, different category and price. -/
def candW2 : Product := { id := 3, name := "d", category := "B", price := 4, description := "" }

/-- Cart line with price 0 (drives the cart average to 0). -/
def zeroPriceLine : Product := { id := 1, name := "z", category := "A", price := 0, description := "" }

/-- Candidate whose description repeats a word: token set {fast} but word
count 2. -/
def dupDescCand : Product := { id := 2, name := "dd", category := "A", price := 1, description := "fast fast" }

/-- Cart line whose description is the single word "fast". -/
def singleDescLine : Product := { id := 1, name := "sd", category := "A", price := 1, description := "fast" }

/-- Catalog product of category "B", listed first. -/
def prodB : Product := { id := 1, name := "b", category := "B", price := 1, description := "" }

/-- Catalog product of category "A", listed second. -/
def prodA : Product := { id := 2, name := "a", category := "A", price := 1, description := "" }

/-! ## Helper lemmas: the stable descending sort -/

theorem insertDesc_length (r : Recommendation) (l : List Recommendation) :
    (insertDesc r l).length = l.length + 1 := by
  induction l with
  | nil => rfl
  | cons s t ih =>
    unfold insertDesc
    split
    · simp
    · simpa using ih

theorem sortDesc_length (l : List Recommendation) :
    (sortDesc l).length = l.length := by
  induction l with
  | nil => rfl
  | cons r t ih => simpa [sortDesc, insertDesc_length] using ih

theorem mem_insertDesc {a r : Recommendation} {l : List Recommendation} :
    a ∈ insertDesc r l ↔ a = r ∨ a ∈ l := by
  induction l with
  | nil => simp [insertDesc]
  | cons s t ih =>
    unfold insertDesc
    split
    · simp [or_comm, or_left_comm]
    · simp [ih, or_comm, or_left_comm]

theorem mem_sortDesc {a : Recommendation} {l : List Recommendation} :
    a ∈ sortDesc l ↔ a ∈ l := by
  induction l with
  | nil => simp [sortDesc]
  | cons r t ih => simp [sortDesc, mem_insertDesc, ih]

theorem insertDesc_pairwise {r : Recommendation} {l : List Recommendation}
    (h : l.Pairwise fun a b => b.confidence_score ≤ a.confidence_score) :
    (insertDesc r l).Pairwise fun a b => b.confidence_score ≤ a.confidence_score := by
  induction l with
  | nil => simp [insertDesc]
  | cons s t ih =>
    rw [List.pairwise_cons] at h
    unfold insertDesc
    split
    · rename_i hle
      refine List.pairwise_cons.mpr ⟨?_, List.pairwise_cons.mpr h⟩
      intro b hb
      rcases List.mem_cons.mp hb with hb | hb
      · exact hb ▸ hle
      · exact le_trans (h.1 b hb) hle
    · rename_i hgt
      refine List.pairwise_cons.mpr ⟨?_, ih h.2⟩
      intro b hb
      rcases mem_insertDesc.mp hb with hb | hb
      · exact hb ▸ le_of_not_le hgt
      · exact h.1 b hb

theorem sortDesc_pairwise (l : List Recommendation) :
    (sortDesc l).Pairwise fun a b => b.confidence_score ≤ a.confidence_score := by
  induction l with
  | nil => simp [sortDesc]
  | cons r t ih => exact insertDesc_pairwise ih

theorem filter_insertDesc (q : ℚ) (r : Recommendation) (l : List Recommendation) :
    (insertDesc r l).filter (fun x => decide (x.confidence_score = q)) =
      (r :: l).filter (fun x => decide (x.confidence_score = q)) := by
  induction l with
  | nil => rfl
  | cons s t ih =>
    unfold insertDesc
    split
    · rfl
    · rename_i hgt
      by_cases hr : r.confidence_score = q
      · have hs : ¬ s.confidence_score = q := fun hs => hgt (le_of_eq (hs.trans hr.symm))
        rw [List.filter_cons_of_neg (by simpa using hs), ih,
          List.filter_cons_of_pos (by simpa using hr),
          List.filter_cons_of_pos (by simpa using hr),
          List.filter_cons_of_neg (by simpa using hs)]
      · have hins : (insertDesc r t).filter (fun x => decide (x.confidence_score = q)) =
            t.filter (fun x => decide (x.confidence_score = q)) := by
          rw [ih]; exact List.filter_cons_of_neg (by simpa using hr)
        rw [show ((r :: s :: t).filter fun x => decide (x.confidence_score = q)) =
            ((s :: t).filter fun x => decide (x.confidence_score = q)) from
          List.filter_cons_of_neg (by simpa using hr)]
        rw [List.filter_cons, List.filter_cons, hins]

theorem filter_sortDesc (q : ℚ) (l : List Recommendation) :
    (sortDesc l).filter (fun x => decide (x.confidence_score = q)) =
      l.filter (fun x => decide (x.confidence_score = q)) := by
  induction l with
  | nil => rfl
  | cons r t ih =>
    rw [sortDesc, filter_insertDesc, List.filter_cons, List.filter_cons, ih]

/-! ## Helper lemmas: slicing and membership -/

theorem pySlice_sublist (l : List α) (limit : Int) : (pySlice l limit).Sublist l := by
  unfold pySlice
  split
  · exact List.take_sublist _ _
  · exact List.take_sublist _ _

theorem mem_pySlice {a : α} {l : List α} {limit : Int} (h : a ∈ pySlice l limit) : a ∈ l :=
  (pySlice_sublist l limit).mem h

theorem pySlice_length_le {limit : Int} (h : 0 ≤ limit) (l : List α) :
    ((pySlice l limit).length : Int) ≤ limit := by
  unfold pySlice
  rw [if_pos h]
  calc ((l.take limit.toNat).length : Int)
      ≤ (limit.toNat : Int) := by exact_mod_cast List.length_take_le _ _
    _ = limit := Int.toNat_of_nonneg h

theorem filter_take (p : α → Bool) :
    ∀ (l : List α) (n : Nat), ∃ k, (l.take n).filter p = (l.filter p).take k := by
  intro l
  induction l with
  | nil => intro n; exact ⟨0, by simp⟩
  | cons a t ih =>
    intro n
    cases n with
    | zero => exact ⟨0, by simp⟩
    | succ m =>
      obtain ⟨k, hk⟩ := ih m
      by_cases hp : p a
      · exact ⟨k + 1, by simp [List.filter_cons, hp, hk]⟩
      · exact ⟨k, by simp [List.filter_cons, hp, hk]⟩

theorem mem_fallbackRecsAux {cats : List String} {total : Nat} {r : Recommendation} :
    ∀ {idx : Nat} {l : List Product}, r ∈ fallbackRecsAux cats total idx l →
      ∃ i p, p ∈ l ∧ r = fallbackRecItem cats total i p := by
  intro idx l
  induction l generalizing idx with
  | nil => intro h; simp [fallbackRecsAux] at h
  | cons p ps ih =>
    intro h
    rcases List.mem_cons.mp h with h | h
    · exact ⟨idx, p, List.mem_cons_self _ _, h⟩
    · obtain ⟨i, p', hp', hr⟩ := ih h
      exact ⟨i, p', List.mem_cons_of_mem _ hp', hr⟩

theorem mem_rawRecs {enum : List String → List String}
    {cart_products product_list : List Product} {r : Recommendation}
    (h : r ∈ rawRecs enum cart_products product_list) :
    ∃ p, p ∈ availableProducts cart_products product_list ∧
      r.product_id = p.id ∧ r.product = p ∧ r.score = r.confidence_score ∧
      r.source = "hybrid" := by
  unfold rawRecs at h
  dsimp only at h
  split at h
  · obtain ⟨i, p, hp, hr⟩ := mem_fallbackRecsAux h
    exact ⟨p, hp, by simp [hr, fallbackRecItem]⟩
  · split at h
    · simp at h
    · obtain ⟨p, hp, hr⟩ := List.mem_map.mp h
      exact ⟨p, hp, by simp [← hr, hybridRecItem]⟩

theorem mem_generate_recommendations {enum : List String → List String}
    {customer_profile : CustomerProfile} {cart_products product_list : List Product}
    {limit : Int} {r : Recommendation}
    (h : r ∈ generate_recommendations enum customer_profile cart_products product_list limit) :
    ∃ p, p ∈ availableProducts cart_products product_list ∧
      r.product_id = p.id ∧ r.product = p ∧ r.score = r.confidence_score ∧
      r.source = "hybrid" := by
  unfold generate_recommendations at h
  dsimp only at h
  split at h
  · simp at h
  · exact mem_rawRecs (mem_sortDesc.mp (mem_pySlice h))

/-! ## Helper lemmas: tokenisation and the description scorer -/

theorem lowerChar_isWhitespace (c : Char) : (lowerChar c).isWhitespace = c.isWhitespace := by
  unfold lowerChar
  split <;> rfl

theorem pySplitAux_map_length (f : Char → Char)
    (hf : ∀ c, (f c).isWhitespace = c.isWhitespace) :
    ∀ (l acc : List Char),
      (pySplitAux (l.map f) (acc.map f)).length = (pySplitAux l acc).length := by
  intro l
  induction l with
  | nil =>
    intro acc
    cases acc <;> rfl
  | cons c cs ih =>
    intro acc
    have hemp : (List.map f acc).isEmpty = acc.isEmpty := by cases acc <;> rfl
    simp only [List.map_cons, pySplitAux, hf c]
    by_cases hw : c.isWhitespace
    · rw [if_pos hw, if_pos hw]
      by_cases ha : acc.isEmpty
      · rw [if_pos (hemp.trans ha), if_pos ha]
        exact ih []
      · rw [if_neg (fun hx => ha (hemp.symm.trans hx)), if_neg ha]
        simp only [List.length_cons]
        have h0 := ih []
        simp only [List.map_nil] at h0
        rw [h0]
    · rw [if_neg hw, if_neg hw]
      exact ih (c :: acc)

theorem wordCount_pyLower (s : String) : wordCount (pyLower s) = wordCount s :=
  pySplitAux_map_length lowerChar lowerChar_isWhitespace s.data []

theorem tokens_length_le_wordCount (s : String) : (tokens s).length ≤ wordCount s :=
  le_trans (List.dedup_sublist _).length_le (le_of_eq (wordCount_pyLower s))

theorem commonTokens_length_le (a b : String) :
    (commonTokens a b).length ≤ (tokens a).length :=
  (List.filter_sublist _).length_le

theorem descRatio_le_one (a b : String) :
    ((commonTokens a b).length : ℚ) / ((max (wordCount a) (wordCount b) : Nat) : ℚ) ≤ 1 := by
  rcases Nat.eq_zero_or_pos (max (wordCount a) (wordCount b)) with hd | hd
  · rw [hd]
    norm_num
  · rw [div_le_one (by exact_mod_cast hd)]
    have h1 : (commonTokens a b).length ≤ max (wordCount a) (wordCount b) :=
      le_trans (commonTokens_length_le a b)
        (le_trans (tokens_length_le_wordCount a) (le_max_left _ _))
    exact_mod_cast h1

theorem le_foldl_max (l : List ℚ) (a : ℚ) : a ≤ l.foldl max a := by
  induction l generalizing a with
  | nil => exact le_refl a
  | cons x t ih => exact le_trans (le_max_left a x) (ih (max a x))

theorem mem_le_foldl_max {x : ℚ} {l : List ℚ} (hx : x ∈ l) (a : ℚ) : x ≤ l.foldl max a := by
  induction l generalizing a with
  | nil => cases hx
  | cons y t ih =>
    rw [List.foldl_cons]
    rcases List.mem_cons.mp hx with h | h
    · subst h
      exact le_trans (le_max_right a x) (le_foldl_max t (max a x))
    · exact ih h (max a y)

theorem foldl_max_le {l : List ℚ} {b : ℚ} (hl : ∀ x ∈ l, x ≤ b) :
    ∀ {a : ℚ}, a ≤ b → l.foldl max a ≤ b := by
  induction l with
  | nil => intro a ha; exact ha
  | cons x t ih =>
    intro a ha
    exact ih (fun y hy => hl y (List.mem_cons_of_mem _ hy))
      (max_le ha (hl x (List.mem_cons_self _ _)))

theorem descConfidence_eq_wordCountDescConfidence (product : Product)
    (cart_products : List Product) :
    descConfidence product cart_products = wordCountDescConfidence product cart_products := by
  unfold descConfidence wordCountDescConfidence
  rw [List.foldl_map]
  suffices h : ∀ (l : List Product) (a : ℚ), 0 ≤ a →
      (l.foldl
        (fun acc cart_item =>
          let common := commonTokens product.description cart_item.description
          if common.isEmpty then acc
          else max acc ((common.length : ℚ) /
            ((max (wordCount product.description) (wordCount cart_item.description) : Nat) : ℚ)))
        a) =
      (l.foldl
        (fun acc item => max acc
          (((commonTokens product.description item.description).length : ℚ) /
            ((max (wordCount product.description) (wordCount item.description) : Nat) : ℚ)))
        a) from h cart_products 0 le_rfl
  intro l
  induction l with
  | nil => intro a _; rfl
  | cons item t ih =>
    intro a ha
    simp only [List.foldl_cons]
    by_cases hc : (commonTokens product.description item.description).isEmpty
    · have hz : ((commonTokens product.description item.description).length : ℚ) /
          ((max (wordCount product.description) (wordCount item.description) : Nat) : ℚ) = 0 := by
        rw [List.isEmpty_iff.mp hc]
        simp
      show (t.foldl _ (if (commonTokens product.description item.description).isEmpty then a
        else _)) = _
      rw [if_pos hc, hz, max_eq_left ha]
      exact ih a ha
    · show (t.foldl _ (if (commonTokens product.description item.description).isEmpty then a
        else _)) = _
      rw [if_neg hc]
      exact ih _ (le_trans ha (le_max_left _ _))

/-! ## Claim theorems -/

/-- C1: no recommendation returned by `generate_recommendations` has a
`product_id` equal to the id of any cart line — cart items are excluded from
the candidate set before scoring.  Holds for every profile, cart, catalog,
limit and any set-enumeration order (so in particular for non-empty carts). -/
theorem generate_recommendations_excludes_cart_items
    (enum : List String → List String) (customer_profile : CustomerProfile)
    (cart_products product_list : List Product) (limit : Int)
    (r : Recommendation)
    (hr : r ∈ generate_recommendations enum customer_profile cart_products product_list limit)
    (item : Product) (hitem : item ∈ cart_products) :
    r.product_id ≠ item.id := by
  obtain ⟨p, hp, hid, -, -, -⟩ := mem_generate_recommendations hr
  have hmem := hp
  unfold availableProducts at hmem
  have hnot : p.id ∉ cart_products.map Product.id := by
    simpa using List.of_mem_filter hmem
  intro h
  apply hnot
  rw [← hid, h]
  exact List.mem_map_of_mem Product.id hitem

/-- Witness for C1: at a one-line cart and one-candidate catalog, the returned
recommendation for product 2 does not carry the cart line's id 1. -/
theorem generate_recommendations_excludes_cart_items_witness :
    hybridRecItem [cartLineW] (avgCartPrice [cartLineW]) candW ∈
      generate_recommendations enumDedup profileW [cartLineW] [candW] 10 ∧
    cartLineW ∈ [cartLineW] ∧
    (hybridRecItem [cartLineW] (avgCartPrice [cartLineW]) candW).product_id ≠ cartLineW.id :=
  ⟨by decide, by decide,
    generate_recommendations_excludes_cart_items enumDedup profileW [cartLineW] [candW] 10
      _ (by decide) cartLineW (by decide)⟩

/-- C10: in every recommendation dictionary returned by
`generate_recommendations`, in both the non-empty-cart branch and the
empty-cart fallback branch, `score` equals `confidence_score`. -/
theorem score_eq_confidence_score
    (enum : List String → List String) (customer_profile : CustomerProfile)
    (cart_products product_list : List Product) (limit : Int)
    (r : Recommendation)
    (hr : r ∈ generate_recommendations enum customer_profile cart_products product_list limit) :
    r.score = r.confidence_score := by
  obtain ⟨p, -, -, -, hs, -⟩ := mem_generate_recommendations hr
  exact hs

/-- Witness for C10 on the empty-cart fallback branch. -/
theorem score_eq_confidence_score_witness :
    fallbackRecItem (enumDedup [prodB.category, prodA.category]) 2 0 prodB ∈
      generate_recommendations enumDedup profileW [] [prodB, prodA] 10 ∧
    (fallbackRecItem (enumDedup [prodB.category, prodA.category]) 2 0 prodB).score =
      (fallbackRecItem (enumDedup [prodB.category, prodA.category]) 2 0 prodB).confidence_score :=
  ⟨by decide,
    score_eq_confidence_score enumDedup profileW [] [prodB, prodA] 10 _ (by decide)⟩

/-- C6 (amended): the scoring entry point never raises and never returns an
error value: for every input — including `limit < 1`, duplicate catalog ids,
empty cart, empty catalog, or a profile it never reads — it returns a plain
(possibly empty) list, every entry of which is built from a candidate product
(the catch-all exception handler converts the one internal failure mode into
the empty list, see `zero_avg_price_aborts_call`). -/
theorem generate_recommendations_never_errors
    (enum : List String → List String) (customer_profile : CustomerProfile)
    (cart_products product_list : List Product) (limit : Int)
    (r : Recommendation)
    (hr : r ∈ generate_recommendations enum customer_profile cart_products product_list limit) :
    r.product ∈ availableProducts cart_products product_list ∧
      r.product_id = r.product.id := by
  obtain ⟨p, hp, hid, hprod, -, -⟩ := mem_generate_recommendations hr
  rw [hprod]
  exact ⟨hp, hid⟩

/-- Witness for C6 (amended) at a concrete input. -/
theorem generate_recommendations_never_errors_witness :
    hybridRecItem [cartLineW] (avgCartPrice [cartLineW]) candW ∈
      generate_recommendations enumDedup profileW [cartLineW] [candW, candW2] 10 ∧
    (hybridRecItem [cartLineW] (avgCartPrice [cartLineW]) candW).product ∈
      availableProducts [cartLineW] [candW, candW2] :=
  ⟨by decide,
    (generate_recommendations_never_errors enumDedup profileW [cartLineW] [candW, candW2] 10
      _ (by decide)).1⟩

/-- C6 counterexample: with a duplicate catalog id the call returns an
ordinary two-element list (both occurrences of product 2 scored and returned),
not an error — yet the claim requires an explicit error exactly for duplicate
catalog ids. -/
theorem duplicate_ids_return_normal_list :
    (generate_recommendations enumDedup profileW [cartLineW] [candW, candW] 10).map
      Recommendation.product_id = [2, 2] := by decide

/-- C3 (amended): when the cart is non-empty and its average price is 0, the
price scorer's division raises `ZeroDivisionError`, the function-level
catch-all aborts the whole call, and the empty list is returned — no
per-candidate degraded 0.0 scoring takes place. -/
theorem zero_avg_price_aborts_call
    (enum : List String → List String) (customer_profile : CustomerProfile)
    (cart_products product_list : List Product) (limit : Int)
    (hcart : cart_products ≠ [])
    (havg : avgCartPrice cart_products = 0) :
    generate_recommendations enum customer_profile cart_products product_list limit = [] := by
  unfold generate_recommendations
  dsimp only
  split
  · rfl
  · have hraw : rawRecs enum cart_products product_list = [] := by
      unfold rawRecs
      dsimp only
      rw [if_neg (fun h => hcart (List.isEmpty_iff.mp h)), if_pos (Or.inl havg)]
    rw [hraw]
    show pySlice (sortDesc []) limit = []
    unfold sortDesc pySlice
    split <;> simp

/-- Witness for C3 (amended) at a concrete zero-priced cart. -/
theorem zero_avg_price_aborts_call_witness :
    ([zeroPriceLine] : List Product) ≠ [] ∧ avgCartPrice [zeroPriceLine] = 0 ∧
    generate_recommendations enumDedup profileW [zeroPriceLine] [candW] 7 = [] :=
  ⟨by decide, by decide,
    zero_avg_price_aborts_call enumDedup profileW [zeroPriceLine] [candW] 7
      (by decide) (by decide)⟩

/-- C3 counterexample: a non-empty cart with average price 0 and one available
candidate — the claim says the call completes with the candidate scored at
price confidence 0.0, but the call returns the empty list. -/
theorem zero_avg_price_claim_cex :
    generate_recommendations enumDedup profileW [zeroPriceLine] [candW] 10 = [] ∧
    availableProducts [zeroPriceLine] [candW] = [candW] :=
  ⟨by decide, by decide⟩

/-- C2 (amended): for every call with a non-negative limit, the returned list
has length at most `limit`, is sorted by score descending, and ties retain
catalog iteration order: restricted to any single score value the result is a
prefix of the pre-sort candidate list (`rawRecs`) restricted to that value
(the sort is stable and truncation takes an initial segment).  For negative
limits Python slice semantics apply instead — see the counterexample. -/
theorem generate_recommendations_sorted_truncated_stable
    (enum : List String → List String) (customer_profile : CustomerProfile)
    (cart_products product_list : List Product) (limit : Int) (hlimit : 0 ≤ limit) :
    ((generate_recommendations enum customer_profile cart_products product_list limit).length :
        Int) ≤ limit
    ∧ (generate_recommendations enum customer_profile cart_products product_list limit).Pairwise
        (fun a b => b.confidence_score ≤ a.confidence_score)
    ∧ ∀ q : ℚ, ∃ k,
        (generate_recommendations enum customer_profile cart_products product_list limit).filter
          (fun x => decide (x.confidence_score = q)) =
        ((rawRecs enum cart_products product_list).filter
          (fun x => decide (x.confidence_score = q))).take k := by
  unfold generate_recommendations
  dsimp only
  split
  · exact ⟨by simpa using hlimit, List.Pairwise.nil, fun q => ⟨0, by simp⟩⟩
  · refine ⟨pySlice_length_le hlimit _,
      List.Pairwise.sublist (pySlice_sublist _ _) (sortDesc_pairwise _), ?_⟩
    intro q
    rw [pySlice, if_pos hlimit]
    obtain ⟨k, hk⟩ := filter_take (fun x => decide (x.confidence_score = q))
      (sortDesc (rawRecs enum cart_products product_list)) limit.toNat
    exact ⟨k, by rw [hk, filter_sortDesc]⟩

/-- Witness for C2 (amended) at a concrete input with limit 10. -/
theorem generate_recommendations_sorted_truncated_stable_witness :
    (0 : Int) ≤ 10 ∧
    (((generate_recommendations enumDedup profileW [cartLineW] [candW, candW2] 10).length :
        Int) ≤ 10
    ∧ (generate_recommendations enumDedup profileW [cartLineW] [candW, candW2] 10).Pairwise
        (fun a b => b.confidence_score ≤ a.confidence_score)
    ∧ ∀ q : ℚ, ∃ k,
        (generate_recommendations enumDedup profileW [cartLineW] [candW, candW2] 10).filter
          (fun x => decide (x.confidence_score = q)) =
        ((rawRecs enumDedup [cartLineW] [candW, candW2]).filter
          (fun x => decide (x.confidence_score = q))).take k) :=
  ⟨by norm_num,
    generate_recommendations_sorted_truncated_stable enumDedup profileW [cartLineW]
      [candW, candW2] 10 (by norm_num)⟩

/-- C2 counterexample: the claim quantifies over every call, but at the legal
call `limit = -1` Python's slice `recommendations[:-1]` drops only the last
element: with two candidates the result has length 1, which is not `≤ -1`. -/
theorem length_le_limit_fails_for_negative_limit :
    ¬ (((generate_recommendations enumDedup profileW [cartLineW] [candW, candW2] (-1)).length :
        Int) ≤ -1) := by decide

/-- C4 (amended): the description-overlap confidence equals the maximum over
cart lines of |token-set intersection| divided by the maximum of the two
descriptions' WORD COUNTS (`len(desc.split())`, counted with multiplicity —
not token-set cardinalities); it is 0.0 when no tokens are shared with any
cart line (with no division error), and 1.0 when some cart line's token set
equals the candidate's and in both descriptions the word count equals the
number of distinct tokens. -/
theorem desc_confidence_word_count_formula (product : Product) (cart_products : List Product) :
    descConfidence product cart_products = wordCountDescConfidence product cart_products
    ∧ ((∀ item ∈ cart_products, commonTokens product.description item.description = []) →
        descConfidence product cart_products = 0)
    ∧ (∀ item ∈ cart_products,
        List.Perm (tokens item.description) (tokens product.description) →
        (tokens product.description).length = wordCount product.description →
        (tokens item.description).length = wordCount item.description →
        tokens product.description ≠ [] →
        descConfidence product cart_products = 1) := by
  refine ⟨descConfidence_eq_wordCountDescConfidence product cart_products, ?_, ?_⟩
  · intro hall
    rw [descConfidence_eq_wordCountDescConfidence]
    unfold wordCountDescConfidence
    apply le_antisymm
    · apply foldl_max_le _ le_rfl
      intro x hx
      obtain ⟨item, hitem, hx⟩ := List.mem_map.mp hx
      rw [← hx, hall item hitem]
      simp
    · exact le_foldl_max _ 0
  · intro item hitem heq hplen hilen hne
    rw [descConfidence_eq_wordCountDescConfidence]
    unfold wordCountDescConfidence
    have hpos : 0 < wordCount product.description := by
      have h0 : 0 < (tokens product.description).length := List.length_pos.mpr hne
      rwa [hplen] at h0
    have hcommon : commonTokens product.description item.description =
        tokens product.description :=
      List.filter_eq_self.mpr fun w hw => by simpa using heq.mem_iff.mpr hw
    have hwceq : wordCount item.description = wordCount product.description := by
      rw [← hilen, heq.length_eq, hplen]
    have hratio : ((commonTokens product.description item.description).length : ℚ) /
        ((max (wordCount product.description) (wordCount item.description) : Nat) : ℚ) = 1 := by
      rw [hcommon, hplen, hwceq, max_self]
      exact div_self (Nat.cast_ne_zero.mpr hpos.ne')
    apply le_antisymm
    · apply foldl_max_le _ (by norm_num)
      intro x hx
      obtain ⟨it, hit, hx⟩ := List.mem_map.mp hx
      rw [← hx]
      exact descRatio_le_one _ _
    · exact mem_le_foldl_max (List.mem_map.mpr ⟨item, hitem, hratio⟩) 0

/-- Witness for C4 (amended): a cart line whose description equals the
candidate's single-word description yields confidence exactly 1. -/
theorem desc_confidence_word_count_formula_witness :
    singleDescLine ∈ [singleDescLine] ∧ descConfidence singleDescLine [singleDescLine] = 1 :=
  ⟨by decide,
    (desc_confidence_word_count_formula singleDescLine [singleDescLine]).2.2
      singleDescLine (by decide) (List.Perm.refl _) (by decide) (by decide) (by decide)⟩

/-- C4 counterexample: the claim's formula divides by token-set cardinalities;
for candidate description "fast fast" against the cart line "fast" it yields
1.0, while the code divides by the word count and computes 1/2. -/
theorem desc_confidence_set_formula_cex :
    descConfidence dupDescCand [singleDescLine] = 1/2 ∧
    claimDescConfidence dupDescCand [singleDescLine] = 1 ∧
    descConfidence dupDescCand [singleDescLine] ≠
      claimDescConfidence dupDescCand [singleDescLine] :=
  ⟨by decide, by decide, by decide⟩

/-- C5: the fallback branch's unique-category list is Python's
`list(set(...))`, whose order is the hash-iteration order of a string set and
not a function of the input.  Both `l.dedup` (which here yields the
first-appearance order ["B", "A"]) and `l.dedup.reverse` (["A", "B"]) are
legal enumerations of the category set of the catalog `[prodB, prodA]`; the
diversity confidences differ between the two, and under the second the
later-seen category "A" (product 2) outranks the first-seen "B" (product 1) —
so the code does not implement the claim's first-appearance formula. -/
theorem fallback_ranking_depends_on_set_order :
    (fallbackRecs (fun l => l.dedup) [prodB, prodA]).map Recommendation.confidence_score ≠
      (fallbackRecs (fun l => l.dedup.reverse) [prodB, prodA]).map Recommendation.confidence_score
    ∧ (generate_recommendations (fun l => l.dedup.reverse) profileW [] [prodB, prodA] 2).map
        Recommendation.product_id = [2, 1] :=
  ⟨by decide, by decide⟩

/-- The clause-assembled explanation always starts with "This product", so it
never coincides with the fallback sentence. -/
theorem this_product_ne_fallback (x : String) :
    "This product " ++ x ≠ "Recommended based on general popularity" := by
  intro h
  have hd : ("This product " ++ x).data =
      ("Recommended based on general popularity" : String).data := by rw [h]
  have hd2 : ('T' :: ("his product ".data ++ x.data)) =
      'R' :: "ecommended based on general popularity".data := hd
  injection hd2 with h1 h2
  exact absurd h1 (by decide)

/-- C7: for a non-negative category confidence, the explanation generator
returns the exact string "Recommended based on general popularity" iff
`category_confidence = 0`, `price_confidence ≤ 0.4` and
`desc_confidence ≤ 0.3`; otherwise it returns "This product " followed by the
applicable clauses (category match when category > 0; similar-price-range when
price > 0.7, else acceptable-price-range when price > 0.4; similar-features
when description > 0.3) joined by ", ". -/
theorem explanation_fallback_characterization
    (category_confidence price_confidence desc_confidence : ℚ) (product : Product)
    (avg_cart_price : ℚ) (hcc : 0 ≤ category_confidence) :
    (generate_confidence_explanation category_confidence price_confidence desc_confidence
        product avg_cart_price = "Recommended based on general popularity"
      ↔ (category_confidence = 0 ∧ price_confidence ≤ 0.4 ∧ desc_confidence ≤ 0.3))
    ∧ (¬ (category_confidence = 0 ∧ price_confidence ≤ 0.4 ∧ desc_confidence ≤ 0.3) →
        generate_confidence_explanation category_confidence price_confidence desc_confidence
            product avg_cart_price =
          "This product " ++ String.intercalate ", "
            ((if 0 < category_confidence then
                ["matches your preferred category (" ++ product.category ++ ")"] else [])
             ++ (if (0.7 : ℚ) < price_confidence then
                   ["is in a similar price range ($" ++ formatPrice2 avg_cart_price ++ ")"]
                 else if (0.4 : ℚ) < price_confidence then
                   ["is within an acceptable price range"]
                 else [])
             ++ (if (0.3 : ℚ) < desc_confidence then
                   ["has similar features to items in your cart"] else []))) := by
  have hA : ((if 0 < category_confidence then
      ["matches your preferred category (" ++ product.category ++ ")"] else []) : List String)
      = [] ↔ category_confidence = 0 := by
    by_cases h1 : 0 < category_confidence
    · rw [if_pos h1]
      exact ⟨fun h => List.noConfusion h, fun h => absurd (h ▸ h1) (lt_irrefl 0)⟩
    · rw [if_neg h1]
      exact ⟨fun _ => le_antisymm (not_lt.mp h1) hcc, fun _ => rfl⟩
  have hB : ((if (0.7 : ℚ) < price_confidence then
        ["is in a similar price range ($" ++ formatPrice2 avg_cart_price ++ ")"]
      else if (0.4 : ℚ) < price_confidence then
        ["is within an acceptable price range"]
      else []) : List String) = [] ↔ price_confidence ≤ 0.4 := by
    by_cases h1 : (0.7 : ℚ) < price_confidence
    · rw [if_pos h1]
      exact ⟨fun h => List.noConfusion h, fun h => absurd h1 (not_lt.mpr (by linarith))⟩
    · rw [if_neg h1]
      by_cases h2 : (0.4 : ℚ) < price_confidence
      · rw [if_pos h2]
        exact ⟨fun h => List.noConfusion h, fun h => absurd h2 (not_lt.mpr h)⟩
      · rw [if_neg h2]
        exact ⟨fun _ => not_lt.mp h2, fun _ => rfl⟩
  have hC : ((if (0.3 : ℚ) < desc_confidence then
      ["has similar features to items in your cart"] else []) : List String) = []
      ↔ desc_confidence ≤ 0.3 := by
    by_cases h1 : (0.3 : ℚ) < desc_confidence
    · rw [if_pos h1]
      exact ⟨fun h => List.noConfusion h, fun h => absurd h1 (not_lt.mpr h)⟩
    · rw [if_neg h1]
      exact ⟨fun _ => not_lt.mp h1, fun _ => rfl⟩
  unfold generate_confidence_explanation
  dsimp only
  by_cases hcond : category_confidence = 0 ∧ price_confidence ≤ 0.4 ∧ desc_confidence ≤ 0.3
  · have hEnil : (((if 0 < category_confidence then
        ["matches your preferred category (" ++ product.category ++ ")"] else [])
        ++ (if (0.7 : ℚ) < price_confidence then
              ["is in a similar price range ($" ++ formatPrice2 avg_cart_price ++ ")"]
            else if (0.4 : ℚ) < price_confidence then
              ["is within an acceptable price range"]
            else [])
        ++ (if (0.3 : ℚ) < desc_confidence then
              ["has similar features to items in your cart"] else [])) : List String) = [] := by
      rw [hA.mpr hcond.1, hB.mpr hcond.2.1, hC.mpr hcond.2.2]
      rfl
    rw [hEnil, if_pos (show (([] : List String)).isEmpty = true from rfl)]
    exact ⟨⟨fun _ => hcond, fun _ => rfl⟩, fun hn => absurd hcond hn⟩
  · have hEne : ¬ ((((if 0 < category_confidence then
        ["matches your preferred category (" ++ product.category ++ ")"] else [])
        ++ (if (0.7 : ℚ) < price_confidence then
              ["is in a similar price range ($" ++ formatPrice2 avg_cart_price ++ ")"]
            else if (0.4 : ℚ) < price_confidence then
              ["is within an acceptable price range"]
            else [])
        ++ (if (0.3 : ℚ) < desc_confidence then
              ["has similar features to items in your cart"] else [])) : List String) = []) := by
      intro h
      rcases List.append_eq_nil.mp h with ⟨hab, hc⟩
      rcases List.append_eq_nil.mp hab with ⟨ha, hb⟩
      exact hcond ⟨hA.mp ha, hB.mp hb, hC.mp hc⟩
    rw [if_neg (fun h => hEne (List.isEmpty_iff.mp h))]
    exact ⟨⟨fun h => absurd h (this_product_ne_fallback _), fun h => absurd h hcond⟩,
      fun _ => rfl⟩

/-- Witness for C7: all-zero confidences yield exactly the fallback
sentence. -/
theorem explanation_fallback_characterization_witness :
    (0 : ℚ) ≤ 0 ∧
    generate_confidence_explanation 0 0 0 candW 1 = "Recommended based on general popularity" :=
  ⟨le_rfl, (explanation_fallback_characterization 0 0 0 candW 1 le_rfl).1.mpr
    ⟨rfl, by norm_num, by norm_num⟩⟩

/-- C8: for a positive cart average price, the price-proximity confidence
`1 / (1 + |price − avg| / avg)` equals 1 exactly when the candidate price
equals the average, always lies in (0, 1], and is strictly decreasing in the
absolute price difference. -/
theorem priceConfidence_properties (avg_cart_price : ℚ) (havg : 0 < avg_cart_price) :
    (∀ price, (priceConfidence price avg_cart_price = 1 ↔ price = avg_cart_price)
      ∧ 0 < priceConfidence price avg_cart_price ∧ priceConfidence price avg_cart_price ≤ 1)
    ∧ ∀ p₁ p₂, |p₁ - avg_cart_price| < |p₂ - avg_cart_price| →
        priceConfidence p₂ avg_cart_price < priceConfidence p₁ avg_cart_price := by
  have hnn : ∀ p : ℚ, 0 ≤ |p - avg_cart_price| / avg_cart_price := fun p =>
    div_nonneg (abs_nonneg _) havg.le
  have hden : ∀ p : ℚ, 0 < 1 + |p - avg_cart_price| / avg_cart_price := fun p => by
    have := hnn p
    linarith
  constructor
  · intro price
    refine ⟨?_, ?_, ?_⟩
    · unfold priceConfidence
      rw [div_eq_iff (hden price).ne', one_mul]
      constructor
      · intro h
        have h2 : |price - avg_cart_price| / avg_cart_price = 0 := by linarith
        have h3 : |price - avg_cart_price| = 0 := by
          rcases div_eq_zero_iff.mp h2 with h3 | h3
          · exact h3
          · exact absurd h3 havg.ne'
        have h4 := sub_eq_zero.mp (abs_eq_zero.mp h3)
        linarith
      · intro h
        rw [h]
        simp
    · unfold priceConfidence
      exact one_div_pos.mpr (hden price)
    · unfold priceConfidence
      rw [div_le_one (hden price)]
      have := hnn price
      linarith
  · intro p₁ p₂ h
    unfold priceConfidence
    have h2 : |p₁ - avg_cart_price| / avg_cart_price <
        |p₂ - avg_cart_price| / avg_cart_price := (div_lt_div_iff_of_pos_right havg).mpr h
    exact one_div_lt_one_div_of_lt (hden p₁) (by linarith)

/-- Witness for C8 at average price 100: confidence 1 at price 100, and
price 130 (difference 30) scores strictly below price 110 (difference 10). -/
theorem priceConfidence_properties_witness :
    (0 : ℚ) < 100 ∧ priceConfidence 100 100 = 1 ∧
      priceConfidence 130 100 < priceConfidence 110 100 := by
  have h := priceConfidence_properties 100 (by norm_num)
  exact ⟨by norm_num, (h.1 100).1.mpr rfl, h.2 110 130 (by decide)⟩

/-- C9 (amended): the single-candidate explain path does not reuse the batch
scorers: every helper it calls is a placeholder returning a constant, so it
returns a fixed combined explanation with confidence 0.8, independent of both
the customer profile and the product. -/
theorem explain_recommendation_constant (profile₁ profile₂ : CustomerProfile)
    (product₁ product₂ : Product) :
    explain_recommendation profile₁ product₁ = explain_recommendation profile₂ product₂
    ∧ (explain_recommendation profile₁ product₁).confidence = 0.8 := by
  constructor
  · rfl
  · show ((0.8 : ℚ) + 0.8 + 0.8) / 3 = 0.8
    norm_num

/-- C9 counterexample: for the same profile and product, the batch path's
explanation and score for candidate 2 differ from the explain path's constant
output (text and confidence both disagree), so the two paths do not agree. -/
theorem explain_path_differs_from_batch :
    (generate_recommendations enumDedup profileW [cartLineW] [candW] 10).map
        Recommendation.explanation ≠
      [(explain_recommendation profileW candW).explanation]
    ∧ (generate_recommendations enumDedup profileW [cartLineW] [candW] 10).map
        Recommendation.confidence_score ≠
      [(explain_recommendation profileW candW).confidence] :=
  ⟨by decide, by decide⟩
